import Mathlib

set_option autoImplicit false

/-!
Verification of the pydov search / field-resolution engine and the
record-replay hook framework.

The definitions below are a shallow embedding of the Python sources
`pydov/search.py`, `pydov/util/hooks.py` and `pydov/types/boring.py`:
Python dicts become association lists in insertion order, exceptions
become `Except` values, network collaborators become function
parameters, and the MD5 digest (from the external `hashlib` library)
becomes a function parameter as well.
-/

namespace Pydov

/-- Values occurring in pydov field-metadata dictionaries: the Python
dicts built by `AbstractSearch._build_fields` hold strings, booleans,
integers and lists of strings. -/
inductive FV where
  | s (v : String)
  | b (v : Bool)
  | i (v : Int)
  | l (v : List String)
deriving DecidableEq, Repr

/-- A Python dict, modelled as an association list whose entries appear
in insertion order. -/
abbrev Dict (α : Type) := List (String × α)

/-- Dict lookup: the value bound to `key`, scanning entries in order. -/
def dlookup {α : Type} : Dict α → String → Option α
  | [], _ => none
  | (k, v) :: rest, key => if k = key then some v else dlookup rest key

/-- The keys of a dict, in insertion order (Python `dict.keys()` /
`zipfile.namelist()`). -/
def dkeys {α : Type} (d : Dict α) : List String := d.map Prod.fst

/-- Python dict assignment `d[k] = v`: an existing binding is updated in
place, a new key is appended at the end. -/
def dictSet {α : Type} (d : Dict α) (k : String) (v : α) : Dict α :=
  if (dlookup d k).isSome then
    d.map (fun p => if p.1 = k then (k, v) else p)
  else d ++ [(k, v)]

@[simp] theorem dlookup_nil {α : Type} (key : String) :
    dlookup ([] : Dict α) key = none := rfl

@[simp] theorem dlookup_cons {α : Type} (k : String) (v : α) (d : Dict α) (key : String) :
    dlookup ((k, v) :: d) key = if k = key then some v else dlookup d key := rfl

theorem dlookup_append {α : Type} (d₁ d₂ : Dict α) (key : String) :
    dlookup (d₁ ++ d₂) key = ((dlookup d₁ key).or (dlookup d₂ key)) := by
  induction d₁ with
  | nil => simp
  | cons p rest ih =>
    obtain ⟨k, v⟩ := p
    by_cases h : k = key <;> simp [h, ih]

theorem dlookup_isSome_iff_mem_dkeys {α : Type} (d : Dict α) (key : String) :
    (dlookup d key).isSome ↔ key ∈ dkeys d := by
  induction d with
  | nil => simp [dkeys]
  | cons p rest ih =>
    obtain ⟨k, v⟩ := p
    show (if k = key then some v else dlookup rest key).isSome ↔ key ∈ k :: dkeys rest
    by_cases h : k = key
    · subst h; simp
    · rw [if_neg h, ih]
      constructor
      · intro hm; exact List.mem_cons_of_mem _ hm
      · intro hm
        rcases List.mem_cons.mp hm with h' | h'
        · exact absurd h'.symm h
        · exact h'

theorem dictSet_of_not_mem {α : Type} (d : Dict α) (k : String) (v : α)
    (h : k ∉ dkeys d) : dictSet d k v = d ++ [(k, v)] := by
  have hl : ¬ (dlookup d k).isSome = true := by
    intro hs
    exact h ((dlookup_isSome_iff_mem_dkeys d k).mp hs)
  simp [dictSet, hl]

theorem dlookup_mapReplace {α : Type} (d : Dict α) (k : String) (v : α) (key : String) :
    dlookup (d.map (fun p => if p.1 = k then (k, v) else p)) key =
      if k = key then (if (dlookup d k).isSome then some v else none)
      else dlookup d key := by
  induction d with
  | nil => by_cases h : k = key <;> simp [h]
  | cons p rest ih =>
    obtain ⟨k', v'⟩ := p
    by_cases hk : k' = k
    · subst hk
      by_cases hkey : k' = key <;> simp [hkey, ih]
    · by_cases hkey : k' = key
      · have hkk : ¬ k = key := fun h => hk (hkey.trans h.symm)
        have hkk' : ¬ key = k := fun h => hkk h.symm
        simp [hk, hkey, hkk, hkk']
      · simp [hk, hkey, ih]

theorem dlookup_dictSet {α : Type} (d : Dict α) (k : String) (v : α) (key : String) :
    dlookup (dictSet d k v) key = if k = key then some v else dlookup d key := by
  unfold dictSet
  by_cases hs : (dlookup d k).isSome
  · rw [if_pos hs, dlookup_mapReplace, if_pos hs]
  · rw [if_neg hs, dlookup_append]
    have hn : dlookup d k = none := by
      cases hval : dlookup d k with
      | none => rfl
      | some w => rw [hval] at hs; simp at hs
    by_cases hkey : k = key
    · subst hkey; rw [hn]; simp
    · rw [if_neg hkey]
      have : dlookup [(k, v)] key = none := by
        simp [dlookup, hkey]
      rw [this]
      cases dlookup d key <;> rfl

theorem dlookup_dictSet_self {α : Type} (d : Dict α) (k : String) (v : α) :
    dlookup (dictSet d k v) k = some v := by
  rw [dlookup_dictSet, if_pos rfl]

theorem dlookup_dictSet_ne {α : Type} (d : Dict α) (k : String) (v : α) (key : String)
    (h : k ≠ key) : dlookup (dictSet d k v) key = dlookup d key := by
  rw [dlookup_dictSet, if_neg h]

/-- Modelled from the spec: `pydov.util.errors` is not under `src/`;
§7 of the specification gives the error taxonomy
(`InvalidSearchParameterError`, `InvalidFieldError`,
`FeatureOverflowError`, `LayerNotFoundError`, `LogReplayError`), each
carrying a human-readable message. -/
inductive PydovError where
  | layerNotFound (msg : String)
  | invalidSearchParameter (msg : String)
  | featureOverflow (msg : String)
  | invalidField (msg : String)
  | logReplay (msg : String)
deriving DecidableEq, Repr

/-- A statically configured field declaration of a DOV type, one entry
of `Boring._fields` / `BoorMethode._fields` in `pydov/types/boring.py`.
The `type` key of the Python dict is called `ftype` here; `definition`
and `notnull` are optional because the WFS-sourced entries of the
configured tables do not carry them. -/
structure TypeField where
  name : String
  source : String
  sourcefield : String
  ftype : String
  definition : Option String
  notnull : Option Bool
deriving DecidableEq, Repr

/-- `Boring._fields` from `pydov/types/boring.py`. -/
def boringOwnFields : List TypeField :=
  [ { name := "pkey_boring", source := "wfs", sourcefield := "fiche",
      ftype := "string", definition := none, notnull := none },
    { name := "boornummer", source := "wfs", sourcefield := "boornummer",
      ftype := "string", definition := none, notnull := none },
    { name := "x", source := "wfs", sourcefield := "X_mL72",
      ftype := "float", definition := none, notnull := none },
    { name := "y", source := "wfs", sourcefield := "Y_mL72",
      ftype := "float", definition := none, notnull := none },
    { name := "mv_mtaw", source := "xml",
      sourcefield := "/boring/oorspronkelijk_maaiveld/waarde",
      ftype := "float",
      definition := some ("Maaiveldhoogte in mTAW op dag dat de boring " ++
        "uitgevoerd werd."),
      notnull := some false },
    { name := "start_boring_mtaw", source := "wfs", sourcefield := "Z_mTAW",
      ftype := "float", definition := none, notnull := none },
    { name := "gemeente", source := "wfs", sourcefield := "gemeente",
      ftype := "string", definition := none, notnull := none },
    { name := "diepte_boring_van", source := "xml",
      sourcefield := "/boring/diepte_van", ftype := "float",
      definition := some "Startdiepte van de boring (in meter).",
      notnull := some true },
    { name := "diepte_boring_tot", source := "wfs",
      sourcefield := "diepte_tot_m", ftype := "float",
      definition := none, notnull := none },
    { name := "datum_aanvang", source := "wfs", sourcefield := "datum_aanvang",
      ftype := "date", definition := none, notnull := none },
    { name := "uitvoerder", source := "wfs", sourcefield := "uitvoerder",
      ftype := "string", definition := none, notnull := none },
    { name := "boorgatmeting", source := "xml",
      sourcefield := "/boring/boorgatmeting/uitgevoerd", ftype := "boolean",
      definition := some "Is er een boorgatmeting uitgevoerd (ja/nee).",
      notnull := some false } ]

/-- `BoorMethode._fields` from `pydov/types/boring.py`, the subtype of
`Boring` (its `_subtypes` list holds exactly `BoorMethode`). -/
def boorMethodeFields : List TypeField :=
  [ { name := "diepte_methode_van", source := "xml", sourcefield := "/van",
      ftype := "float",
      definition := some ("Bovenkant van de laag die met een bepaalde " ++
        "methode aangeboord werd, in meter."),
      notnull := some false },
    { name := "diepte_methode_tot", source := "xml", sourcefield := "/tot",
      ftype := "float",
      definition := some ("Onderkant van de laag die met een bepaalde " ++
        "methode aangeboord werd, in meter."),
      notnull := some false },
    { name := "boormethode", source := "xml", sourcefield := "/methode",
      ftype := "string",
      definition := some "Boormethode voor het diepte-interval.",
      notnull := some false } ]

/-- Modelled from the spec: `AbstractDovType.get_fields` lives in
`pydov/types/abstract.py`, which is not under `src/`. Per §6 the Type
Parser "exposes a static field-declaration table (name, source,
sourcefield, type, notnull, definition)"; the calls in the sources
filter it by `source`, and `Boring._parse_xml_data` passes
`include_subtypes=False`, showing that by default the table includes the
subtype declarations after the type's own. `typeFields` is that full
table (own fields followed by subtype fields). -/
def getFields (typeFields : List TypeField) (source : List String) : List TypeField :=
  typeFields.filter (fun f => f.source ∈ source)

/-- Modelled from the spec: `AbstractDovType.get_field_names` is also in
the missing `pydov/types/abstract.py`; §4.2 describes the check using it
as one "against the Type Parser's declared field set", so it returns the
names of the declared fields. -/
def getFieldNames (typeFields : List TypeField) : List String :=
  typeFields.map (fun f => f.name)

/-- The full declared field table of the `Boring` type: its own fields
followed by those of its single subtype `BoorMethode`. -/
def boringAllFields : List TypeField := boringOwnFields ++ boorMethodeFields

/-! ## Record / replay hooks (`pydov/util/hooks.py`)

The zip archive of `RepeatableLogRecorder` / `RepeatableLogReplayer` is
modelled as a `Dict String` mapping entry names (`namelist()`) to their
UTF-8 text content; `writestr` appends an entry. The MD5 hex digest
(external `hashlib.md5(...).hexdigest()`) is a function parameter
`md5hex`. The query serializer `etree.tostring` for WFS filters is a
function parameter as well. The `multiprocessing.Lock` held by the xml
methods only serializes concurrent access and has no effect in this
sequential model. -/

/-- Log path for the `meta` namespace: `'meta/' + md5(url).hexdigest() + '.log'`. -/
def metaLogPath (md5hex : String → String) (url : String) : String :=
  "meta/" ++ md5hex url ++ ".log"

/-- Log path for the `wfs` namespace, keyed by the serialized query. -/
def wfsLogPath (md5hex : String → String) (q : String) : String :=
  "wfs/" ++ md5hex q ++ ".log"

/-- Log path for the `xml` namespace, keyed by the object's permanent key. -/
def xmlLogPath (md5hex : String → String) (pkey : String) : String :=
  "xml/" ++ md5hex pkey ++ ".log"

/-- The common write pattern of `RepeatableLogRecorder`: write the entry
only when `namelist()` does not already contain its path. -/
def logWrite (archive : Dict String) (logPath : String) (payload : String) : Dict String :=
  if logPath ∈ dkeys archive then archive else archive ++ [(logPath, payload)]

/-- `RepeatableLogRecorder.meta_received`. -/
def metaReceived (md5hex : String → String) (archive : Dict String)
    (url response : String) : Dict String :=
  logWrite archive (metaLogPath md5hex url) response

/-- `RepeatableLogRecorder.wfs_search_result_features`: the key is the
MD5 of the serialized query, the payload the serialized features. -/
def wfsSearchResultFeaturesRecorded (md5hex : String → String) (archive : Dict String)
    (serializedQuery serializedFeatures : String) : Dict String :=
  logWrite archive (wfsLogPath md5hex serializedQuery) serializedFeatures

/-- `RepeatableLogRecorder.xml_retrieved`. -/
def xmlRetrieved (md5hex : String → String) (archive : Dict String)
    (pkeyObject xml : String) : Dict String :=
  logWrite archive (xmlLogPath md5hex pkeyObject) xml

/-- The common read pattern of `RepeatableLogRecorder.inject_*`: `None`
when `namelist()` has no entry for the path (`dlookup` is `none` exactly
when the path is absent from `dkeys`), the stored text otherwise. -/
def logReadOpt (archive : Dict String) (logPath : String) : Option String :=
  match dlookup archive logPath with
  | none => none
  | some payload => some payload

/-- `RepeatableLogRecorder.inject_meta_response`. -/
def injectMetaResponseRecorder (md5hex : String → String) (archive : Dict String)
    (url : String) : Option String :=
  logReadOpt archive (metaLogPath md5hex url)

/-- `RepeatableLogRecorder.inject_wfs_result_features`. -/
def injectWfsResultFeaturesRecorder (md5hex : String → String) (archive : Dict String)
    (serializedQuery : String) : Option String :=
  logReadOpt archive (wfsLogPath md5hex serializedQuery)

/-- `RepeatableLogRecorder.inject_xml_retrieved`. -/
def injectXmlRetrievedRecorder (md5hex : String → String) (archive : Dict String)
    (pkeyObject : String) : Option String :=
  logReadOpt archive (xmlLogPath md5hex pkeyObject)

/-- The common read pattern of `RepeatableLogReplayer.inject_*`: raise
`LogReplayError` with the given message when `namelist()` has no entry
for the path, return the stored text otherwise. -/
def logReadOrReplayError (archive : Dict String) (logPath : String)
    (missingMsg : String) : Except PydovError String :=
  match dlookup archive logPath with
  | none => .error (.logReplay missingMsg)
  | some payload => .ok payload

/-- `RepeatableLogReplayer.inject_meta_response`. -/
def injectMetaResponseReplayer (md5hex : String → String) (archive : Dict String)
    (url : String) : Except PydovError String :=
  logReadOrReplayError archive (metaLogPath md5hex url)
    ("Failed to replay log: no entry for meta response of " ++ md5hex url ++ ".")

/-- `RepeatableLogReplayer.inject_wfs_result_features`. -/
def injectWfsResultFeaturesReplayer (md5hex : String → String) (archive : Dict String)
    (serializedQuery : String) : Except PydovError String :=
  logReadOrReplayError archive (wfsLogPath md5hex serializedQuery)
    ("Failed to replay log: no entry for WFS result of " ++
      md5hex serializedQuery ++ ".")

/-- `RepeatableLogReplayer.inject_xml_retrieved`. -/
def injectXmlRetrievedReplayer (md5hex : String → String) (archive : Dict String)
    (pkeyObject : String) : Except PydovError String :=
  logReadOrReplayError archive (xmlLogPath md5hex pkeyObject)
    ("Failed to replay log: no entry for XML result of " ++
      md5hex pkeyObject ++ ".")

/-! ## Field resolver (`AbstractSearch._build_fields`) -/

/-- The WFS schema of a layer: `wfs_schema['properties']` maps property
names to their declared type names. -/
structure Schema where
  properties : Dict String
deriving DecidableEq, Repr

/-- One attribute of the feature catalogue, an entry of
`feature_catalogue['attributes']`: a definition, a multiplicity range
(lower bound used by `_build_fields`), and optional enumerated values. -/
structure FcAttr where
  definition : String
  multiplicity : Int × Option Int
  values : Option (List String)
deriving DecidableEq, Repr

/-- The feature catalogue of a layer, as returned by
`owsutil.get_remote_featurecatalogue`. -/
structure FeatureCatalogue where
  attributes : Dict FcAttr
deriving DecidableEq, Repr

/-- `_map_wfs_datatypes` in `_build_fields`. -/
def mapWfsDatatypes : Dict String := [("int", "integer"), ("decimal", "float")]

/-- One merged field dictionary of `_build_fields` (the inner `field`
dicts); keys in their insertion order. -/
abbrev FieldDict := Dict FV

/-- The field dict built for a WFS property present in both the schema and
the feature catalogue (`_build_fields`, first loop): keys `name`,
`definition`, `type`, `notnull`, `cost` and, only when the catalogue's
values are non-`None` and non-empty after stripping, `values`. -/
def wfsFieldDict (wfsType : String) (name : String) (fcField : FcAttr) : FieldDict :=
  let base : FieldDict :=
    [("name", FV.s name),
     ("definition", FV.s fcField.definition),
     ("type", FV.s ((dlookup mapWfsDatatypes wfsType).getD wfsType)),
     ("notnull", FV.b (decide (fcField.multiplicity.1 > 0))),
     ("cost", FV.i 1)]
  match fcField.values with
  | none => base
  | some vs =>
    let strippedValues := (vs.filter (fun v => v.trim.length > 0)).map String.trim
    if strippedValues.length > 0 then base ++ [("values", FV.l strippedValues)]
    else base

/-- The field dict built for an XML-sourced configured field
(`_build_fields`, second loop): keys `name`, `type`, `definition`,
`notnull`, `cost`; the configured `source` and `sourcefield` are not
copied. When a configured entry lacked `definition` or `notnull` the
Python code would fail on the key access; every configured XML field
carries both, so the defaults below are never exercised. -/
def xmlMergedField (xmlField : TypeField) : FieldDict :=
  [("name", FV.s xmlField.name),
   ("type", FV.s xmlField.ftype),
   ("definition", FV.s (xmlField.definition.getD "")),
   ("notnull", FV.b (xmlField.notnull.getD false)),
   ("cost", FV.i 10)]

/-- The name maps built at the start of `_build_fields` from
`self._type.get_fields(source=('wfs',)).values()`: the first component
is `_map_wfs_source_df` (sourcefield to name), the second
`_map_df_wfs_source` (name to sourcefield). -/
def buildNameMaps (dfWfsFields : List TypeField) : Dict String × Dict String :=
  dfWfsFields.foldl
    (fun maps f => (dictSet maps.1 f.sourcefield f.name,
                    dictSet maps.2 f.name f.sourcefield))
    ([], [])

/-- The first loop of `_build_fields` over `wfs_schema['properties']`:
for each property present in the feature catalogue's attributes, append
it to `_wfs_fields` and store its field dict under its mapped name;
properties absent from the catalogue are skipped. -/
def wfsStage (mapWfsSourceDf : Dict String) (catAttributes : Dict FcAttr) :
    Dict String → Dict FieldDict × List String → Dict FieldDict × List String
  | [], acc => acc
  | (wfsField, wfsType) :: rest, (fields, wfsFields) =>
    match dlookup catAttributes wfsField with
    | some fcField =>
      let name := (dlookup mapWfsSourceDf wfsField).getD wfsField
      wfsStage mapWfsSourceDf catAttributes rest
        (dictSet fields name (wfsFieldDict wfsType name fcField),
         wfsFields ++ [wfsField])
    | none => wfsStage mapWfsSourceDf catAttributes rest (fields, wfsFields)

/-- The second loop of `_build_fields`: merge every configured
XML-sourced field into the dict under its name. -/
def xmlStage : List TypeField → Dict FieldDict → Dict FieldDict
  | [], fields => fields
  | f :: rest, fields => xmlStage rest (dictSet fields f.name (xmlMergedField f))

/-- The result of `_build_fields` together with the instance state it
populates (`self._fields`, `self._wfs_fields`, `self._map_wfs_source_df`,
`self._map_df_wfs_source`). -/
structure BuildResult where
  fields : Dict FieldDict
  wfsFields : List String
  mapWfsSourceDf : Dict String
  mapDfWfsSource : Dict String
deriving DecidableEq, Repr

/-- `AbstractSearch._build_fields`. -/
def buildFields (typeFields : List TypeField) (wfsSchema : Schema)
    (featureCatalogue : FeatureCatalogue) : BuildResult :=
  let maps := buildNameMaps (getFields typeFields ["wfs"])
  let stage := wfsStage maps.1 featureCatalogue.attributes wfsSchema.properties ([], [])
  { fields := xmlStage (getFields typeFields ["xml"]) stage.1,
    wfsFields := stage.2,
    mapWfsSourceDf := maps.1,
    mapDfWfsSource := maps.2 }

/-! ## Search orchestrator (`AbstractSearch._pre_search_validation`,
`AbstractSearch._search`)

A bounding box is a tuple of four numeric bounds (coordinates modelled
as integers; no claim involves coordinate arithmetic). The OGC filter
is modelled by the facet the code touches: the document-order list of
`PropertyName` texts that `findall('.//ogc:PropertyName')` yields and
that the rewriting step mutates. `FilterRequest().setConstraint(query)`
wraps the query; it leaves the property names unchanged. -/

abbrev BBox := Int × Int × Int × Int

/-- A filter expression, reduced to its `PropertyName` texts in document
order. -/
structure FilterRequest where
  propertyNames : List String
deriving DecidableEq, Repr

/-- `FilterRequest().setConstraint(query)`. -/
def setConstraint (query : FilterRequest) : FilterRequest := query

/-- The query-parameter check for a single `PropertyName` of the filter
(`_pre_search_validation`, first loop body). -/
def checkQueryName (st : BuildResult) (name : String) : Except PydovError Unit :=
  if (dlookup st.mapDfWfsSource name).isSome = false ∧ name ∉ st.wfsFields then
    if (dlookup st.fields name).isSome then
      .error (.invalidField ("Cannot use return field '" ++ name ++ "' in query."))
    else
      .error (.invalidField ("Unknown query parameter: '" ++ name ++ "'"))
  else .ok ()

/-- The return-field existence check (`_pre_search_validation`, second
loop body); note the source's misspelt message for the suggestion case. -/
def checkReturnField (st : BuildResult) (rf : String) : Except PydovError Unit :=
  match dlookup st.fields rf with
  | some _ => .ok ()
  | none =>
    match dlookup st.mapWfsSourceDf rf with
    | some internal =>
      .error (.invalidField ("Unkown return field: '" ++ rf ++
        "'. Did you mean '" ++ internal ++ "'?"))
    | none => .error (.invalidField ("Unknown return field: '" ++ rf ++ "'"))

/-- The retrievability check against the type's declared field names
(`_pre_search_validation`, third loop body). -/
def checkRetrievable (typeFieldNames : List String) (rf : String) : Except PydovError Unit :=
  if rf ∈ typeFieldNames then .ok ()
  else .error (.invalidField ("Field cannot be used as a return field: '" ++ rf ++ "'"))

/-- A Python `for` loop that raises on the first offending element. -/
def firstError (f : String → Except PydovError Unit) :
    List String → Except PydovError Unit
  | [] => .ok ()
  | x :: xs =>
    match f x with
    | .error e => .error e
    | .ok _ => firstError f xs

/-- `AbstractSearch._pre_search_validation`. -/
def preSearchValidation (st : BuildResult) (typeFieldNames : List String)
    (location : Option BBox) (query : Option FilterRequest)
    (returnFields : Option (List String)) : Except PydovError Unit :=
  if location = none ∧ query = none then
    .error (.invalidSearchParameter "Provide either the location or the query parameter.")
  else if location ≠ none ∧ query ≠ none then
    .error (.invalidSearchParameter
      "Provide either the location or the query parameter, not both.")
  else
    match (match query with
           | some q => firstError (checkQueryName st) q.propertyNames
           | none => .ok ()) with
    | .error e => .error e
    | .ok _ =>
      match returnFields with
      | none => .ok ()
      | some rfs =>
        match firstError (checkReturnField st) rfs with
        | .error e => .error e
        | .ok _ => firstError (checkRetrievable typeFieldNames) rfs

/-- The WFS response tree: the code reads exactly one attribute of it,
`numberOfFeatures` (already parsed to an integer); the rest is opaque. -/
structure XmlTree where
  numberOfFeatures : Int
  content : String
deriving DecidableEq, Repr

/-- Observable effects of `_search`. The only effect the source performs
is the network call (`_get_remote_wfs_feature`); the hook events of
`AbstractHook` get constructors here so that their absence from the
trace is expressible. -/
inductive Event where
  | networkCall (typename : String) (bbox : Option BBox)
      (filterRequest : Option String) (propertyNames : List String)
  | wfsSearchInit (typename : String)
  | wfsSearchQuery
  | wfsSearchResult (numberOfResults : Int)
  | wfsSearchResultFeatures
deriving DecidableEq, Repr

/-- Whether an event is the network call (as opposed to a hook event). -/
def Event.isNetworkCall : Event → Bool
  | .networkCall _ _ _ _ => true
  | _ => false

/-- The overflow message of `_search` (`'Reached the limit of %i ...' % 10000`). -/
def overflowMsg : String :=
  "Reached the limit of 10000 returned features. Please split up " ++
  "the query to ensure getting all results."

/-- `AbstractSearch._search`. Inputs beyond the search parameters: the
instance state `st` built by `_build_fields`, the declared field names of
the type, the layer name, the serializer `etree.tostring` for the filter
and the network collaborator `remote` (bbox, serialized filter, property
names to response tree). The result pairs the trace of observable
effects with the returned tree or the raised error. -/
def search (st : BuildResult) (typeFieldNames : List String) (layer : String)
    (location : Option BBox) (query : Option FilterRequest)
    (returnFields : Option (List String))
    (serialize : FilterRequest → String)
    (remote : Option BBox → Option String → List String → XmlTree) :
    List Event × Except PydovError XmlTree :=
  let filterRequest := query.map setConstraint
  match preSearchValidation st typeFieldNames location filterRequest returnFields with
  | .error e => ([], .error e)
  | .ok _ =>
    let rewritten := filterRequest.map (fun fr =>
      { propertyNames := fr.propertyNames.map (fun n =>
          (dlookup st.mapDfWfsSource n).getD n) })
    let filterStr := rewritten.map serialize
    let wfsPropertyNames :=
      match returnFields with
      | none => dkeys st.mapWfsSourceDf
      | some rfs =>
        let pkeyNames := (st.mapDfWfsSource.filter
          (fun p => p.1.startsWith "pkey")).map Prod.snd
        let requested := (st.mapDfWfsSource.filter
          (fun p => p.1 ∈ rfs)).map Prod.snd
        -- `list(set(...))`: de-duplication with unspecified order.
        (pkeyNames ++ requested).dedup
    let tree := remote location filterStr wfsPropertyNames
    let trace := [Event.networkCall layer location filterStr wfsPropertyNames]
    if tree.numberOfFeatures = 10000 then
      (trace, .error (.featureOverflow overflowMsg))
    else
      (trace, .ok tree)

/-- Whether a computation raised `InvalidSearchParameterError`. -/
def raisesInvalidSearchParameter {α : Type} : Except PydovError α → Bool
  | .error (.invalidSearchParameter _) => true
  | _ => false

/-- Whether an error is an `InvalidFieldError`. -/
def PydovError.isInvalidFieldB : PydovError → Bool
  | .invalidField _ => true
  | _ => false

/-- A sample remote schema used to instantiate the theorems: two
properties that the catalogue also describes and one that it does not. -/
def sampleSchema : Schema :=
  ⟨[("fiche", "string"), ("diepte_tot_m", "decimal"), ("onlyschema", "string")]⟩

/-- A sample feature catalogue matching `sampleSchema` except for
`onlyschema`. -/
def sampleCatalogue : FeatureCatalogue :=
  ⟨[("fiche", { definition := "Fiche URL", multiplicity := (1, some 1),
                values := none }),
    ("diepte_tot_m", { definition := "Diepte tot", multiplicity := (0, some 1),
                       values := some [" 10 ", ""] })]⟩

/-- The resolver state for the `Boring` layer on the sample inputs. -/
def boringBuild : BuildResult := buildFields boringAllFields sampleSchema sampleCatalogue

/-! ## Theorems -/

theorem logWrite_fresh (archive : Dict String) (k p : String) (h : k ∉ dkeys archive) :
    logWrite archive k p = archive ++ [(k, p)] := by
  simp [logWrite, h]

theorem filter_key_eq_nil (archive : Dict String) (k : String) (h : k ∉ dkeys archive) :
    archive.filter (fun e => e.1 == k) = [] := by
  induction archive with
  | nil => rfl
  | cons p rest ih =>
    have hk : ¬ p.1 = k := by
      intro hp
      exact h (by simp [dkeys, hp])
    have hrest : k ∉ dkeys rest := by
      intro hm
      exact h (by simp [dkeys] at hm ⊢; exact Or.inr hm)
    have hb : (p.1 == k) = false := by simp [hk]
    simp [List.filter, hb, ih hrest]

theorem logWrite_twice (archive : Dict String) (k p₁ p₂ : String)
    (h : k ∉ dkeys archive) :
    (logWrite (logWrite archive k p₁) k p₂).filter (fun e => e.1 == k) = [(k, p₁)] := by
  rw [logWrite_fresh archive k p₁ h]
  have hmem : k ∈ dkeys (archive ++ [(k, p₁)]) := by
    simp [dkeys]
  rw [logWrite, if_pos hmem]
  rw [List.filter_append, filter_key_eq_nil archive k h]
  simp

theorem logReadOrReplayError_none (archive : Dict String) (logPath msg : String)
    (h : dlookup archive logPath = none) :
    logReadOrReplayError archive logPath msg = .error (.logReplay msg) := by
  simp [logReadOrReplayError, h]

theorem logReadOrReplayError_some (archive : Dict String) (logPath msg v : String)
    (h : dlookup archive logPath = some v) :
    logReadOrReplayError archive logPath msg = .ok v := by
  simp [logReadOrReplayError, h]

/-- C4: on every `inject_*` call of `RepeatableLogReplayer` whose computed
MD5 key has no entry in the corresponding namespace (`meta`, `wfs`,
`xml`) of the log archive, a `LogReplayError` is raised whose message
names the missing key, and no fallback value is returned; when the key
is present, the stored payload is returned. -/
theorem replayer_inject_all_or_nothing (md5hex : String → String)
    (archive : Dict String) (url serializedQuery pkeyObject : String) :
    (dlookup archive (metaLogPath md5hex url) = none →
      injectMetaResponseReplayer md5hex archive url =
        .error (.logReplay ("Failed to replay log: no entry for meta response of " ++
          md5hex url ++ ".")) ∧
      ∃ pre post, ("Failed to replay log: no entry for meta response of " ++
          md5hex url ++ "." : String) = pre ++ md5hex url ++ post) ∧
    (∀ v, dlookup archive (metaLogPath md5hex url) = some v →
      injectMetaResponseReplayer md5hex archive url = .ok v) ∧
    (dlookup archive (wfsLogPath md5hex serializedQuery) = none →
      injectWfsResultFeaturesReplayer md5hex archive serializedQuery =
        .error (.logReplay ("Failed to replay log: no entry for WFS result of " ++
          md5hex serializedQuery ++ ".")) ∧
      ∃ pre post, ("Failed to replay log: no entry for WFS result of " ++
          md5hex serializedQuery ++ "." : String) = pre ++ md5hex serializedQuery ++ post) ∧
    (∀ v, dlookup archive (wfsLogPath md5hex serializedQuery) = some v →
      injectWfsResultFeaturesReplayer md5hex archive serializedQuery = .ok v) ∧
    (dlookup archive (xmlLogPath md5hex pkeyObject) = none →
      injectXmlRetrievedReplayer md5hex archive pkeyObject =
        .error (.logReplay ("Failed to replay log: no entry for XML result of " ++
          md5hex pkeyObject ++ ".")) ∧
      ∃ pre post, ("Failed to replay log: no entry for XML result of " ++
          md5hex pkeyObject ++ "." : String) = pre ++ md5hex pkeyObject ++ post) ∧
    (∀ v, dlookup archive (xmlLogPath md5hex pkeyObject) = some v →
      injectXmlRetrievedReplayer md5hex archive pkeyObject = .ok v) := by
  refine ⟨fun h => ⟨?_, ?_⟩, fun v h => ?_, fun h => ⟨?_, ?_⟩, fun v h => ?_,
    fun h => ⟨?_, ?_⟩, fun v h => ?_⟩
  · exact logReadOrReplayError_none _ _ _ h
  · exact ⟨"Failed to replay log: no entry for meta response of ", ".", rfl⟩
  · exact logReadOrReplayError_some _ _ _ v h
  · exact logReadOrReplayError_none _ _ _ h
  · exact ⟨"Failed to replay log: no entry for WFS result of ", ".", rfl⟩
  · exact logReadOrReplayError_some _ _ _ v h
  · exact logReadOrReplayError_none _ _ _ h
  · exact ⟨"Failed to replay log: no entry for XML result of ", ".", rfl⟩
  · exact logReadOrReplayError_some _ _ _ v h

/-- C4 witness: a concrete archive holding `wfs` and `xml` entries but no
`meta` entry, with the identity digest. -/
theorem replayer_inject_all_or_nothing_witness :
    (injectMetaResponseReplayer (fun s => s) [("wfs/q.log", "W"), ("xml/p.log", "X")] "u" =
      .error (.logReplay ("Failed to replay log: no entry for meta response of " ++
        "u" ++ "."))) ∧
    (injectWfsResultFeaturesReplayer (fun s => s)
      [("wfs/q.log", "W"), ("xml/p.log", "X")] "q" = .ok "W") ∧
    (injectXmlRetrievedReplayer (fun s => s)
      [("wfs/q.log", "W"), ("xml/p.log", "X")] "p" = .ok "X") := by
  have h := replayer_inject_all_or_nothing (fun s => s)
    [("wfs/q.log", "W"), ("xml/p.log", "X")] "u" "q" "p"
  exact ⟨(h.1 (by decide)).1, h.2.2.2.1 "W" (by decide), h.2.2.2.2.2 "X" (by decide)⟩

/-- C5: during one record session, a second write of a payload under a
computed key that already has an entry leaves the stored payload
unchanged: after two writes of distinct payloads under the same key
(in any of the three namespaces), the log holds exactly one entry for
that key, containing the first payload. -/
theorem recorder_first_write_wins (md5hex : String → String) (archive : Dict String)
    (url p₁ p₂ : String) (serializedQuery f₁ f₂ : String) (pkeyObject x₁ x₂ : String) :
    (metaLogPath md5hex url ∉ dkeys archive → p₁ ≠ p₂ →
      (metaReceived md5hex (metaReceived md5hex archive url p₁) url p₂).filter
          (fun e => e.1 == metaLogPath md5hex url) =
        [(metaLogPath md5hex url, p₁)]) ∧
    (wfsLogPath md5hex serializedQuery ∉ dkeys archive → f₁ ≠ f₂ →
      (wfsSearchResultFeaturesRecorded md5hex
          (wfsSearchResultFeaturesRecorded md5hex archive serializedQuery f₁)
          serializedQuery f₂).filter
          (fun e => e.1 == wfsLogPath md5hex serializedQuery) =
        [(wfsLogPath md5hex serializedQuery, f₁)]) ∧
    (xmlLogPath md5hex pkeyObject ∉ dkeys archive → x₁ ≠ x₂ →
      (xmlRetrieved md5hex (xmlRetrieved md5hex archive pkeyObject x₁)
          pkeyObject x₂).filter
          (fun e => e.1 == xmlLogPath md5hex pkeyObject) =
        [(xmlLogPath md5hex pkeyObject, x₁)]) := by
  refine ⟨fun h _ => ?_, fun h _ => ?_, fun h _ => ?_⟩
  · exact logWrite_twice archive _ p₁ p₂ h
  · exact logWrite_twice archive _ f₁ f₂ h
  · exact logWrite_twice archive _ x₁ x₂ h

/-- C5 witness: an empty archive, the identity digest and two distinct
payloads per namespace. -/
theorem recorder_first_write_wins_witness :
    ((metaReceived (fun s => s) (metaReceived (fun s => s) [] "u" "A") "u" "B").filter
        (fun e => e.1 == metaLogPath (fun s => s) "u") =
      [(metaLogPath (fun s => s) "u", "A")]) ∧
    ((wfsSearchResultFeaturesRecorded (fun s => s)
        (wfsSearchResultFeaturesRecorded (fun s => s) [] "q" "C") "q" "D").filter
        (fun e => e.1 == wfsLogPath (fun s => s) "q") =
      [(wfsLogPath (fun s => s) "q", "C")]) ∧
    ((xmlRetrieved (fun s => s) (xmlRetrieved (fun s => s) [] "p" "E") "p" "F").filter
        (fun e => e.1 == xmlLogPath (fun s => s) "p") =
      [(xmlLogPath (fun s => s) "p", "E")]) := by
  have h := recorder_first_write_wins (fun s => s) [] "u" "A" "B" "q" "C" "D" "p" "E" "F"
  exact ⟨h.1 (by decide) (by decide), h.2.1 (by decide) (by decide),
    h.2.2 (by decide) (by decide)⟩

/-- C10: the record hook answers `inject_*` queries from its own
in-session log: each of `inject_meta_response`,
`inject_wfs_result_features` and `inject_xml_retrieved` returns the
recorded payload when the computed key was recorded in this session, and
`None` otherwise — by its `Option` result type it can never raise
`LogReplayError`. -/
theorem recorder_inject_from_session_log (md5hex : String → String)
    (archive : Dict String) (url serializedQuery pkeyObject : String) :
    (dlookup archive (metaLogPath md5hex url) = none →
      injectMetaResponseRecorder md5hex archive url = none) ∧
    (∀ v, dlookup archive (metaLogPath md5hex url) = some v →
      injectMetaResponseRecorder md5hex archive url = some v) ∧
    (dlookup archive (wfsLogPath md5hex serializedQuery) = none →
      injectWfsResultFeaturesRecorder md5hex archive serializedQuery = none) ∧
    (∀ v, dlookup archive (wfsLogPath md5hex serializedQuery) = some v →
      injectWfsResultFeaturesRecorder md5hex archive serializedQuery = some v) ∧
    (dlookup archive (xmlLogPath md5hex pkeyObject) = none →
      injectXmlRetrievedRecorder md5hex archive pkeyObject = none) ∧
    (∀ v, dlookup archive (xmlLogPath md5hex pkeyObject) = some v →
      injectXmlRetrievedRecorder md5hex archive pkeyObject = some v) := by
  refine ⟨fun h => ?_, fun v h => ?_, fun h => ?_, fun v h => ?_, fun h => ?_,
    fun v h => ?_⟩ <;>
    simp [injectMetaResponseRecorder, injectWfsResultFeaturesRecorder,
      injectXmlRetrievedRecorder, logReadOpt, h]

/-- C10 witness: a session log holding a `meta` and an `xml` entry but no
`wfs` entry, with the identity digest. -/
theorem recorder_inject_from_session_log_witness :
    (injectMetaResponseRecorder (fun s => s)
      [("meta/u.log", "M"), ("xml/p.log", "X")] "u" = some "M") ∧
    (injectWfsResultFeaturesRecorder (fun s => s)
      [("meta/u.log", "M"), ("xml/p.log", "X")] "q" = none) ∧
    (injectXmlRetrievedRecorder (fun s => s)
      [("meta/u.log", "M"), ("xml/p.log", "X")] "p" = some "X") := by
  have h := recorder_inject_from_session_log (fun s => s)
    [("meta/u.log", "M"), ("xml/p.log", "X")] "u" "q" "p"
  exact ⟨h.2.1 "M" (by decide), h.2.2.1 (by decide), h.2.2.2.2.2 "X" (by decide)⟩

theorem checkQueryName_error_isInvalidField (st : BuildResult) (name : String)
    (e : PydovError) (h : checkQueryName st name = .error e) :
    e.isInvalidFieldB = true := by
  unfold checkQueryName at h
  split at h
  · split at h
    · cases h; rfl
    · cases h; rfl
  · cases h

theorem checkReturnField_error_isInvalidField (st : BuildResult) (rf : String)
    (e : PydovError) (h : checkReturnField st rf = .error e) :
    e.isInvalidFieldB = true := by
  unfold checkReturnField at h
  split at h
  · cases h
  · split at h
    · cases h; rfl
    · cases h; rfl

theorem checkRetrievable_error_isInvalidField (typeFieldNames : List String)
    (rf : String) (e : PydovError) (h : checkRetrievable typeFieldNames rf = .error e) :
    e.isInvalidFieldB = true := by
  unfold checkRetrievable at h
  split at h
  · cases h
  · cases h; rfl

theorem firstError_error_isInvalidField (f : String → Except PydovError Unit)
    (hf : ∀ x e, f x = .error e → e.isInvalidFieldB = true) (l : List String)
    (e : PydovError) (h : firstError f l = .error e) : e.isInvalidFieldB = true := by
  induction l with
  | nil => cases h
  | cons x xs ih =>
    unfold firstError at h
    cases hx : f x with
    | error e' =>
      rw [hx] at h
      cases h
      exact hf x e hx
    | ok u => rw [hx] at h; exact ih h

theorem preSearchValidation_exactly_one_not_isp (st : BuildResult)
    (typeFieldNames : List String) (location : Option BBox)
    (query : Option FilterRequest) (returnFields : Option (List String))
    (hone : (location.isSome ∧ query = none) ∨ (location = none ∧ query.isSome)) :
    raisesInvalidSearchParameter
      (preSearchValidation st typeFieldNames location query returnFields) = false := by
  have hnotboth : ¬ (location = none ∧ query = none) := by
    rcases hone with ⟨hl, _⟩ | ⟨_, hq⟩
    · rintro ⟨hl', _⟩; rw [hl'] at hl; cases hl
    · rintro ⟨_, hq'⟩; rw [hq'] at hq; cases hq
  have hnotneither : ¬ (location ≠ none ∧ query ≠ none) := by
    rcases hone with ⟨_, hq⟩ | ⟨hl, _⟩
    · rintro ⟨_, hq'⟩; exact hq' hq
    · rintro ⟨hl', _⟩; exact hl' hl
  unfold preSearchValidation
  rw [if_neg hnotboth, if_neg hnotneither]
  cases hq : (match query with
              | some q => firstError (checkQueryName st) q.propertyNames
              | none => Except.ok ()) with
  | error e =>
    have he : e.isInvalidFieldB = true := by
      cases query with
      | none => simp at hq
      | some q =>
        exact firstError_error_isInvalidField _
          (fun x e' h' => checkQueryName_error_isInvalidField st x e' h')
          q.propertyNames e hq
    cases e <;> simp_all [raisesInvalidSearchParameter, PydovError.isInvalidFieldB]
  | ok u =>
    cases u
    cases returnFields with
    | none => rfl
    | some rfs =>
      cases hr : firstError (checkReturnField st) rfs with
      | error e =>
        have he := firstError_error_isInvalidField _
          (fun x e' h' => checkReturnField_error_isInvalidField st x e' h') rfs e hr
        cases e <;> simp_all [raisesInvalidSearchParameter, PydovError.isInvalidFieldB]
      | ok u' =>
        cases u'
        cases hr2 : firstError (checkRetrievable typeFieldNames) rfs with
        | error e =>
          have he := firstError_error_isInvalidField _
            (fun x e' h' => checkRetrievable_error_isInvalidField typeFieldNames x e' h')
            rfs e hr2
          cases e <;> simp_all [raisesInvalidSearchParameter, PydovError.isInvalidFieldB]
        | ok u'' => simp [raisesInvalidSearchParameter, hr, hr2]

/-- C3: calling search validation with both `location` and `query` set, or
with neither set, raises `InvalidSearchParameterError` before any network
request is issued (the effect trace of `_search` is empty in those
cases); when exactly one of the two is supplied, no
`InvalidSearchParameterError` is raised. -/
theorem validation_location_query_exclusive (st : BuildResult)
    (typeFieldNames : List String) (layer : String) (loc : BBox)
    (q : FilterRequest) (returnFields : Option (List String))
    (serialize : FilterRequest → String)
    (remote : Option BBox → Option String → List String → XmlTree) :
    (preSearchValidation st typeFieldNames none none returnFields =
      .error (.invalidSearchParameter
        "Provide either the location or the query parameter.")) ∧
    (preSearchValidation st typeFieldNames (some loc) (some q) returnFields =
      .error (.invalidSearchParameter
        "Provide either the location or the query parameter, not both.")) ∧
    (raisesInvalidSearchParameter
      (preSearchValidation st typeFieldNames (some loc) none returnFields) = false) ∧
    (raisesInvalidSearchParameter
      (preSearchValidation st typeFieldNames none (some q) returnFields) = false) ∧
    (search st typeFieldNames layer none none returnFields serialize remote =
      ([], .error (.invalidSearchParameter
        "Provide either the location or the query parameter."))) ∧
    (search st typeFieldNames layer (some loc) (some q) returnFields serialize remote =
      ([], .error (.invalidSearchParameter
        "Provide either the location or the query parameter, not both."))) := by
  have hneither : preSearchValidation st typeFieldNames none none returnFields =
      .error (.invalidSearchParameter
        "Provide either the location or the query parameter.") := by
    unfold preSearchValidation
    rw [if_pos ⟨rfl, rfl⟩]
  have hboth : preSearchValidation st typeFieldNames (some loc) (some q) returnFields =
      .error (.invalidSearchParameter
        "Provide either the location or the query parameter, not both.") := by
    unfold preSearchValidation
    rw [if_neg (by rintro ⟨h, _⟩; cases h)]
    rw [if_pos ⟨Option.some_ne_none _, Option.some_ne_none _⟩]
  refine ⟨hneither, hboth, ?_, ?_, ?_, ?_⟩
  · exact preSearchValidation_exactly_one_not_isp st typeFieldNames (some loc) none
      returnFields (Or.inl ⟨rfl, rfl⟩)
  · exact preSearchValidation_exactly_one_not_isp st typeFieldNames none (some q)
      returnFields (Or.inr ⟨rfl, rfl⟩)
  · simp only [search, Option.map_none', hneither]
  · simp only [search, Option.map_some', setConstraint, hboth]

theorem preSearchValidation_loc_only (st : BuildResult) (typeFieldNames : List String)
    (loc : BBox) : preSearchValidation st typeFieldNames (some loc) none none = .ok () := by
  unfold preSearchValidation
  rw [if_neg (by rintro ⟨h, _⟩; cases h)]
  rw [if_neg (by rintro ⟨_, h⟩; exact h rfl)]

/-- C2: a search whose WFS response reports a feature count equal to
exactly 10000 raises `FeatureOverflowError`; a response with any other
reported count raises no `FeatureOverflowError` and the parsed result
tree is returned. Stated for a bounding-box search with all fields. -/
theorem search_overflow_at_cap (st : BuildResult) (typeFieldNames : List String)
    (layer : String) (loc : BBox) (serialize : FilterRequest → String)
    (remote : Option BBox → Option String → List String → XmlTree) :
    ((remote (some loc) none (dkeys st.mapWfsSourceDf)).numberOfFeatures = 10000 →
      search st typeFieldNames layer (some loc) none none serialize remote =
        ([Event.networkCall layer (some loc) none (dkeys st.mapWfsSourceDf)],
         .error (.featureOverflow overflowMsg))) ∧
    ((remote (some loc) none (dkeys st.mapWfsSourceDf)).numberOfFeatures ≠ 10000 →
      search st typeFieldNames layer (some loc) none none serialize remote =
        ([Event.networkCall layer (some loc) none (dkeys st.mapWfsSourceDf)],
         .ok (remote (some loc) none (dkeys st.mapWfsSourceDf)))) := by
  constructor
  · intro hcap
    simp only [search, Option.map_none', preSearchValidation_loc_only, hcap, if_pos]
  · intro hne
    simp only [search, Option.map_none', preSearchValidation_loc_only, if_neg hne]

/-- C2 witness: concrete searches against a remote reporting 10000
(overflow) and 9999 (returned tree) features. -/
theorem search_overflow_at_cap_witness :
    (search ⟨[], [], [], []⟩ [] "dov-pub:Boringen" (some (1, 2, 3, 4)) none none
        (fun _ => "") (fun _ _ _ => ⟨10000, "t"⟩) =
      ([Event.networkCall "dov-pub:Boringen" (some (1, 2, 3, 4)) none []],
       .error (.featureOverflow overflowMsg))) ∧
    (search ⟨[], [], [], []⟩ [] "dov-pub:Boringen" (some (1, 2, 3, 4)) none none
        (fun _ => "") (fun _ _ _ => ⟨9999, "t"⟩) =
      ([Event.networkCall "dov-pub:Boringen" (some (1, 2, 3, 4)) none []],
       .ok ⟨9999, "t"⟩)) := by
  constructor
  · exact (search_overflow_at_cap ⟨[], [], [], []⟩ [] "dov-pub:Boringen" (1, 2, 3, 4)
      (fun _ => "") (fun _ _ _ => ⟨10000, "t"⟩)).1 rfl
  · exact (search_overflow_at_cap ⟨[], [], [], []⟩ [] "dov-pub:Boringen" (1, 2, 3, 4)
      (fun _ => "") (fun _ _ _ => ⟨9999, "t"⟩)).2 (by decide)

/-- C6: contrary to the claim, `_search` dispatches no hook events at
all: every event in its effect trace is the network call itself; in
particular no `wfs_search_init`, `wfs_search_query`, `wfs_search_result`
or `wfs_search_result_features` event is ever emitted. The hook method
docstrings in `pydov/util/hooks.py` ("Called upon starting a WFS
search", "Called after a WFS search finished") document the claimed
behaviour, which the code does not implement. -/
theorem search_dispatches_no_hook_events (st : BuildResult)
    (typeFieldNames : List String) (layer : String) (location : Option BBox)
    (query : Option FilterRequest) (returnFields : Option (List String))
    (serialize : FilterRequest → String)
    (remote : Option BBox → Option String → List String → XmlTree) :
    ((search st typeFieldNames layer location query returnFields
        serialize remote).1.all Event.isNetworkCall) = true := by
  cases h : preSearchValidation st typeFieldNames location
      (Option.map setConstraint query) returnFields with
  | error e => simp [search, h]
  | ok u =>
    simp only [search, h]
    split <;> rfl

theorem dkeys_append_single {α : Type} (d : Dict α) (k : String) (v : α) :
    dkeys (d ++ [(k, v)]) = dkeys d ++ [k] := by
  simp [dkeys]

theorem buildNameMaps_roundtrip_aux (l : List TypeField) :
    ∀ (m₁ m₂ : Dict String),
    (∀ n sf, dlookup m₂ n = some sf → dlookup m₁ sf = some n) →
    (∀ sf n, dlookup m₁ sf = some n → dlookup m₂ n = some sf) →
    (∀ f ∈ l, f.name ∉ dkeys m₂) →
    (∀ f ∈ l, f.sourcefield ∉ dkeys m₁) →
    (l.map (fun f => f.name)).Nodup →
    (l.map (fun f => f.sourcefield)).Nodup →
    (∀ n sf, dlookup (l.foldl
        (fun maps f => (dictSet maps.1 f.sourcefield f.name,
                        dictSet maps.2 f.name f.sourcefield)) (m₁, m₂)).2 n = some sf →
      dlookup (l.foldl
        (fun maps f => (dictSet maps.1 f.sourcefield f.name,
                        dictSet maps.2 f.name f.sourcefield)) (m₁, m₂)).1 sf = some n) ∧
    (∀ sf n, dlookup (l.foldl
        (fun maps f => (dictSet maps.1 f.sourcefield f.name,
                        dictSet maps.2 f.name f.sourcefield)) (m₁, m₂)).1 sf = some n →
      dlookup (l.foldl
        (fun maps f => (dictSet maps.1 f.sourcefield f.name,
                        dictSet maps.2 f.name f.sourcefield)) (m₁, m₂)).2 n = some sf) := by
  induction l with
  | nil =>
    intro m₁ m₂ hinv₁ hinv₂ _ _ _ _
    exact ⟨hinv₁, hinv₂⟩
  | cons f rest ih =>
    intro m₁ m₂ hinv₁ hinv₂ hfresh₂ hfresh₁ hnames hsfs
    have hfname : f.name ∉ dkeys m₂ := hfresh₂ f (List.mem_cons_self f rest)
    have hfsf : f.sourcefield ∉ dkeys m₁ := hfresh₁ f (List.mem_cons_self f rest)
    simp only [List.foldl_cons]
    apply ih (dictSet m₁ f.sourcefield f.name) (dictSet m₂ f.name f.sourcefield)
    · intro n sf h
      rw [dlookup_dictSet] at h
      by_cases hn : f.name = n
      · rw [if_pos hn] at h
        cases h
        rw [← hn, dlookup_dictSet_self]
      · rw [if_neg hn] at h
        have hold := hinv₁ n sf h
        have hne : f.sourcefield ≠ sf := by
          intro he
          rw [he] at hfsf
          exact hfsf ((dlookup_isSome_iff_mem_dkeys m₁ sf).mp (by rw [hold]; rfl))
        rw [dlookup_dictSet_ne _ _ _ _ hne]
        exact hold
    · intro sf n h
      rw [dlookup_dictSet] at h
      by_cases hs : f.sourcefield = sf
      · rw [if_pos hs] at h
        cases h
        rw [← hs, dlookup_dictSet_self]
      · rw [if_neg hs] at h
        have hold := hinv₂ sf n h
        have hne : f.name ≠ n := by
          intro he
          rw [he] at hfname
          exact hfname ((dlookup_isSome_iff_mem_dkeys m₂ n).mp (by rw [hold]; rfl))
        rw [dlookup_dictSet_ne _ _ _ _ hne]
        exact hold
    · intro g hg
      rw [dictSet_of_not_mem m₂ f.name f.sourcefield hfname, dkeys_append_single]
      intro hmem
      rcases List.mem_append.mp hmem with hm | hm
      · exact hfresh₂ g (List.mem_cons_of_mem f hg) hm
      · have : g.name = f.name := by simpa using hm
        have hne : f.name ∉ rest.map (fun f => f.name) :=
          (List.nodup_cons.mp hnames).1
        exact hne (this ▸ List.mem_map_of_mem (fun f => f.name) hg)
    · intro g hg
      rw [dictSet_of_not_mem m₁ f.sourcefield f.name hfsf, dkeys_append_single]
      intro hmem
      rcases List.mem_append.mp hmem with hm | hm
      · exact hfresh₁ g (List.mem_cons_of_mem f hg) hm
      · have : g.sourcefield = f.sourcefield := by simpa using hm
        have hne : f.sourcefield ∉ rest.map (fun f => f.sourcefield) :=
          (List.nodup_cons.mp hsfs).1
        exact hne (this ▸ List.mem_map_of_mem (fun f => f.sourcefield) hg)
    · exact (List.nodup_cons.mp hnames).2
    · exact (List.nodup_cons.mp hsfs).2

/-- C7: the two name maps built from the WFS-sourced field declarations
(`_map_df_wfs_source`, internal name to wire-level source field, and
`_map_wfs_source_df`, wire-level source field back to internal name) are
mutually inverse over the WFS-sourced fields: translating an internal
name to its source field and back yields the original name, and
conversely, provided the declared names and source fields are each
duplicate-free. -/
theorem name_maps_mutually_inverse (dfWfsFields : List TypeField)
    (hnames : (dfWfsFields.map (fun f => f.name)).Nodup)
    (hsfs : (dfWfsFields.map (fun f => f.sourcefield)).Nodup) :
    (∀ n sf, dlookup (buildNameMaps dfWfsFields).2 n = some sf →
      dlookup (buildNameMaps dfWfsFields).1 sf = some n) ∧
    (∀ sf n, dlookup (buildNameMaps dfWfsFields).1 sf = some n →
      dlookup (buildNameMaps dfWfsFields).2 n = some sf) := by
  exact buildNameMaps_roundtrip_aux dfWfsFields [] []
    (fun n sf h => by cases h) (fun sf n h => by cases h)
    (fun f _ h => by cases h) (fun f _ h => by cases h) hnames hsfs

/-- C7 witness: for the `Boring` layer's WFS-sourced fields, the internal
name `x` maps to `X_mL72` and back. -/
theorem name_maps_mutually_inverse_witness :
    dlookup (buildNameMaps (getFields boringAllFields ["wfs"])).1 "X_mL72" = some "x" ∧
    dlookup (buildNameMaps (getFields boringAllFields ["wfs"])).2 "x" = some "X_mL72" := by
  have h := name_maps_mutually_inverse (getFields boringAllFields ["wfs"])
    (by decide) (by decide)
  exact ⟨h.1 "x" "X_mL72" (by decide), h.2 "X_mL72" "x" (by decide)⟩

theorem isInvalidFieldB_elim (e : PydovError) (h : e.isInvalidFieldB = true) :
    ∃ msg, e = .invalidField msg := by
  cases e <;> simp [PydovError.isInvalidFieldB] at h ⊢

theorem checkReturnField_not_ok (st : BuildResult) (rf : String)
    (h : dlookup st.fields rf = none) : ∀ u, checkReturnField st rf ≠ .ok u := by
  intro u
  unfold checkReturnField
  rw [h]
  cases dlookup st.mapWfsSourceDf rf <;> intro hc <;> cases hc

theorem firstError_error_of_mem (f : String → Except PydovError Unit)
    (hkind : ∀ y e, f y = .error e → e.isInvalidFieldB = true)
    (l : List String) (x : String) (hx : x ∈ l) (hfx : ∀ u, f x ≠ .ok u) :
    ∃ msg, firstError f l = .error (.invalidField msg) := by
  induction l with
  | nil => cases hx
  | cons y ys ih =>
    cases hfy : f y with
    | error e =>
      obtain ⟨msg, rfl⟩ := isInvalidFieldB_elim e (hkind y e hfy)
      exact ⟨msg, by simp [firstError, hfy]⟩
    | ok u =>
      have hxy : x ≠ y := fun he => hfx u (he ▸ hfy)
      have hx' : x ∈ ys := by
        rcases List.mem_cons.mp hx with h' | h'
        · exact absurd h' hxy
        · exact h'
      obtain ⟨msg, hm⟩ := ih hx'
      exact ⟨msg, by simp [firstError, hfy, hm]⟩

/-- C9: a requested return field absent from the resolved field set makes
validation raise `InvalidFieldError`; and when that name equals a known
wire-level WFS source field name, the message of the error raised for it
names the corresponding internal field name as the suggested
correction. -/
theorem unknown_return_field_raises (st : BuildResult) (typeFieldNames : List String)
    (loc : BBox) (rfs : List String) (rf : String) (rest : List String)
    (internal : String) :
    (rf ∈ rfs → dlookup st.fields rf = none →
      ∃ msg, preSearchValidation st typeFieldNames (some loc) none (some rfs) =
        .error (.invalidField msg)) ∧
    (dlookup st.fields rf = none → dlookup st.mapWfsSourceDf rf = some internal →
      preSearchValidation st typeFieldNames (some loc) none (some (rf :: rest)) =
        .error (.invalidField ("Unkown return field: '" ++ rf ++
          "'. Did you mean '" ++ internal ++ "'?")) ∧
      ∃ pre post, ("Unkown return field: '" ++ rf ++ "'. Did you mean '" ++
          internal ++ "'?" : String) = pre ++ internal ++ post) := by
  constructor
  · intro hmem habs
    obtain ⟨msg, hfe⟩ := firstError_error_of_mem (checkReturnField st)
      (fun y e h => checkReturnField_error_isInvalidField st y e h) rfs rf hmem
      (checkReturnField_not_ok st rf habs)
    refine ⟨msg, ?_⟩
    unfold preSearchValidation
    rw [if_neg (by rintro ⟨h, _⟩; cases h)]
    rw [if_neg (by rintro ⟨_, h⟩; exact h rfl)]
    simp [hfe]
  · intro habs hmap
    have hcheck : checkReturnField st rf = .error (.invalidField
        ("Unkown return field: '" ++ rf ++ "'. Did you mean '" ++ internal ++ "'?")) := by
      unfold checkReturnField
      rw [habs, hmap]
    constructor
    · unfold preSearchValidation
      rw [if_neg (by rintro ⟨h, _⟩; cases h)]
      rw [if_neg (by rintro ⟨_, h⟩; exact h rfl)]
      simp [firstError, hcheck]
    · refine ⟨"Unkown return field: '" ++ rf ++ "'. Did you mean '", "'?", ?_⟩
      simp [String.append_assoc]

/-- C9 witness: against the `Boring` resolver state on the sample inputs,
requesting the wire-level name `X_mL72` as a return field raises
`InvalidFieldError` suggesting the internal name `x`. -/
theorem unknown_return_field_raises_witness :
    preSearchValidation boringBuild (getFieldNames boringAllFields)
        (some (1, 2, 3, 4)) none (some ["X_mL72"]) =
      .error (.invalidField ("Unkown return field: '" ++ "X_mL72" ++
        "'. Did you mean '" ++ "x" ++ "'?")) := by
  exact (((unknown_return_field_raises boringBuild (getFieldNames boringAllFields)
    (1, 2, 3, 4) ["X_mL72"] "X_mL72" [] "x").2 (by decide) (by decide)).1)

theorem dlookup_dictSet_isSome {α : Type} (d : Dict α) (k : String) (v : α)
    (key : String) :
    (dlookup (dictSet d k v) key).isSome ↔ (k = key ∨ (dlookup d key).isSome) := by
  rw [dlookup_dictSet]
  by_cases h : k = key <;> simp [h]

theorem wfsStage_lookup_isSome (maps : Dict String) (cat : Dict FcAttr) :
    ∀ (props : Dict String) (fields : Dict FieldDict) (wfsFields : List String)
      (n : String),
    (dlookup (wfsStage maps cat props (fields, wfsFields)).1 n).isSome ↔
      ((dlookup fields n).isSome ∨
       ∃ p t, (p, t) ∈ props ∧ (dlookup cat p).isSome ∧
         (dlookup maps p).getD p = n) := by
  intro props
  induction props with
  | nil =>
    intro fields wfsFields n
    simp [wfsStage]
  | cons pt rest ih =>
    intro fields wfsFields n
    obtain ⟨p, t⟩ := pt
    cases hcat : dlookup cat p with
    | none =>
      show (dlookup (wfsStage maps cat ((p, t) :: rest) (fields, wfsFields)).1 n).isSome
        ↔ _
      unfold wfsStage
      rw [hcat]
      rw [ih]
      constructor
      · rintro (h | ⟨p', t', hmem, hsome, hname⟩)
        · exact Or.inl h
        · exact Or.inr ⟨p', t', List.mem_cons_of_mem _ hmem, hsome, hname⟩
      · rintro (h | ⟨p', t', hmem, hsome, hname⟩)
        · exact Or.inl h
        · rcases List.mem_cons.mp hmem with heq | hmem'
          · rw [Prod.mk.injEq] at heq
            rw [heq.1, hcat] at hsome
            cases hsome
          · exact Or.inr ⟨p', t', hmem', hsome, hname⟩
    | some fc =>
      unfold wfsStage
      rw [hcat]
      rw [ih]
      rw [dlookup_dictSet_isSome]
      constructor
      · rintro ((hn | h) | ⟨p', t', hmem, hsome, hname⟩)
        · exact Or.inr ⟨p, t, List.mem_cons_self _ _, by rw [hcat]; rfl, hn⟩
        · exact Or.inl h
        · exact Or.inr ⟨p', t', List.mem_cons_of_mem _ hmem, hsome, hname⟩
      · rintro (h | ⟨p', t', hmem, hsome, hname⟩)
        · exact Or.inl (Or.inr h)
        · rcases List.mem_cons.mp hmem with heq | hmem'
          · rw [Prod.mk.injEq] at heq
            exact Or.inl (Or.inl (by rw [← heq.1]; exact hname))
          · exact Or.inr ⟨p', t', hmem', hsome, hname⟩

theorem wfsFieldDict_cost (t name : String) (fcField : FcAttr) :
    dlookup (wfsFieldDict t name fcField) "cost" = some (FV.i 1) := by
  unfold wfsFieldDict
  split
  · simp
  · dsimp only
    split
    · rw [dlookup_append]
      simp
    · simp

theorem wfsStage_cost (maps : Dict String) (cat : Dict FcAttr) :
    ∀ (props : Dict String) (fields : Dict FieldDict) (wfsFields : List String),
    (∀ n d, dlookup fields n = some d → dlookup d "cost" = some (FV.i 1)) →
    ∀ n d, dlookup (wfsStage maps cat props (fields, wfsFields)).1 n = some d →
      dlookup d "cost" = some (FV.i 1) := by
  intro props
  induction props with
  | nil =>
    intro fields wfsFields hinv n d h
    exact hinv n d h
  | cons pt rest ih =>
    intro fields wfsFields hinv n d h
    obtain ⟨p, t⟩ := pt
    cases hcat : dlookup cat p with
    | none =>
      unfold wfsStage at h
      rw [hcat] at h
      exact ih fields wfsFields hinv n d h
    | some fc =>
      unfold wfsStage at h
      rw [hcat] at h
      refine ih _ _ ?_ n d h
      intro n' d' h'
      rw [dlookup_dictSet] at h'
      by_cases hn : (dlookup maps p).getD p = n'
      · rw [if_pos hn] at h'
        cases h'
        exact wfsFieldDict_cost t _ fc
      · rw [if_neg hn] at h'
        exact hinv n' d' h'

theorem xmlMergedField_cost (f : TypeField) :
    dlookup (xmlMergedField f) "cost" = some (FV.i 10) := by
  simp [xmlMergedField]

theorem xmlStage_cost1_of (xmlFields : List TypeField) :
    ∀ (fields : Dict FieldDict) (n : String) (d : FieldDict),
    dlookup (xmlStage xmlFields fields) n = some d →
    dlookup d "cost" = some (FV.i 1) → dlookup fields n = some d := by
  induction xmlFields with
  | nil => intro fields n d h _; exact h
  | cons f rest ih =>
    intro fields n d h hcost
    have h' := ih (dictSet fields f.name (xmlMergedField f)) n d h hcost
    rw [dlookup_dictSet] at h'
    by_cases hn : f.name = n
    · rw [if_pos hn] at h'
      cases h'
      rw [xmlMergedField_cost] at hcost
      cases hcost
    · rw [if_neg hn] at h'
      exact h'

theorem wfsStage_skip (maps : Dict String) (cat : Dict FcAttr) (p t : String)
    (hcat : dlookup cat p = none) :
    ∀ (props₁ props₂ : Dict String) (acc : Dict FieldDict × List String),
    wfsStage maps cat (props₁ ++ (p, t) :: props₂) acc =
      wfsStage maps cat (props₁ ++ props₂) acc := by
  intro props₁
  induction props₁ with
  | nil =>
    intro props₂ acc
    obtain ⟨fields, wfsFields⟩ := acc
    show wfsStage maps cat ((p, t) :: props₂) (fields, wfsFields)
      = wfsStage maps cat props₂ (fields, wfsFields)
    conv_lhs => rw [wfsStage]
    rw [hcat]
  | cons qt rest ih =>
    intro props₂ acc
    obtain ⟨fields, wfsFields⟩ := acc
    obtain ⟨q, tq⟩ := qt
    show wfsStage maps cat ((q, tq) :: (rest ++ (p, t) :: props₂)) (fields, wfsFields)
      = wfsStage maps cat ((q, tq) :: (rest ++ props₂)) (fields, wfsFields)
    unfold wfsStage
    cases dlookup cat q with
    | none => exact ih props₂ (fields, wfsFields)
    | some fc => exact ih props₂ _

/-- C1: for every layer, the first loop of `_build_fields` emits a
WFS-branch field dict (each such dict carrying `cost = 1`) under the
mapped name of exactly those property names present in both the remote
schema's `properties` and the feature catalogue's `attributes`; every
`cost = 1` descriptor surviving in the final merged output stems from
such a property; and a property present in the schema but absent from
the catalogue yields no descriptor and raises no error — removing it
from the schema leaves the entire (total) result of `_build_fields`
unchanged. -/
theorem wfs_fields_exactly_schema_inter_catalogue (typeFields : List TypeField)
    (wfsSchema : Schema) (featureCatalogue : FeatureCatalogue) (n p t : String)
    (props₁ props₂ : Dict String) :
    ((dlookup (wfsStage (buildNameMaps (getFields typeFields ["wfs"])).1
        featureCatalogue.attributes wfsSchema.properties ([], [])).1 n).isSome ↔
      ∃ p' t', (p', t') ∈ wfsSchema.properties ∧
        (dlookup featureCatalogue.attributes p').isSome ∧
        (dlookup (buildNameMaps (getFields typeFields ["wfs"])).1 p').getD p' = n) ∧
    (∀ d, dlookup (wfsStage (buildNameMaps (getFields typeFields ["wfs"])).1
        featureCatalogue.attributes wfsSchema.properties ([], [])).1 n = some d →
      dlookup d "cost" = some (FV.i 1)) ∧
    (∀ d, dlookup (buildFields typeFields wfsSchema featureCatalogue).fields n = some d →
      dlookup d "cost" = some (FV.i 1) →
      ∃ p' t', (p', t') ∈ wfsSchema.properties ∧
        (dlookup featureCatalogue.attributes p').isSome ∧
        (dlookup (buildNameMaps (getFields typeFields ["wfs"])).1 p').getD p' = n) ∧
    (dlookup featureCatalogue.attributes p = none →
      buildFields typeFields ⟨props₁ ++ (p, t) :: props₂⟩ featureCatalogue =
        buildFields typeFields ⟨props₁ ++ props₂⟩ featureCatalogue) := by
  refine ⟨?_, ?_, ?_, ?_⟩
  · rw [wfsStage_lookup_isSome]
    constructor
    · rintro (h | h)
      · simp at h
      · exact h
    · exact fun h => Or.inr h
  · intro d h
    exact wfsStage_cost _ _ wfsSchema.properties [] [] (fun n' d' h' => by cases h')
      n d h
  · intro d h hcost
    have hstage := xmlStage_cost1_of (getFields typeFields ["xml"]) _ n d h hcost
    have : (dlookup (wfsStage (buildNameMaps (getFields typeFields ["wfs"])).1
        featureCatalogue.attributes wfsSchema.properties ([], [])).1 n).isSome := by
      rw [hstage]; rfl
    rw [wfsStage_lookup_isSome] at this
    rcases this with h' | h'
    · simp at h'
    · exact h'
  · intro hcat
    simp only [buildFields]
    rw [wfsStage_skip _ _ p t hcat]

/-- C1 witness: for the `Boring` layer on the sample inputs, `fiche` is in
both schema and catalogue and yields the descriptor `pkey_boring`, while
dropping the catalogue-absent `onlyschema` property from the schema
leaves the result of `_build_fields` unchanged. -/
theorem wfs_fields_exactly_schema_inter_catalogue_witness :
    ((dlookup (wfsStage (buildNameMaps (getFields boringAllFields ["wfs"])).1
        sampleCatalogue.attributes sampleSchema.properties ([], [])).1
      "pkey_boring").isSome = true) ∧
    (buildFields boringAllFields
        ⟨[("fiche", "string"), ("diepte_tot_m", "decimal")] ++
          ("onlyschema", "string") :: []⟩ sampleCatalogue =
      buildFields boringAllFields
        ⟨[("fiche", "string"), ("diepte_tot_m", "decimal")] ++ []⟩ sampleCatalogue) := by
  have h := wfs_fields_exactly_schema_inter_catalogue boringAllFields sampleSchema
    sampleCatalogue "pkey_boring" "onlyschema" "string"
    [("fiche", "string"), ("diepte_tot_m", "decimal")] []
  exact ⟨h.1.mpr ⟨"fiche", "string", by decide, by decide, by decide⟩,
    h.2.2.2 (by decide)⟩

theorem xmlStage_lookup_preserved (xmlFields : List TypeField) :
    ∀ (fields : Dict FieldDict) (k : String),
    (∀ g ∈ xmlFields, g.name ≠ k) →
    dlookup (xmlStage xmlFields fields) k = dlookup fields k := by
  induction xmlFields with
  | nil => intro fields k _; rfl
  | cons g rest ih =>
    intro fields k hk
    show dlookup (xmlStage rest (dictSet fields g.name (xmlMergedField g))) k = _
    rw [ih _ k (fun g' hg' => hk g' (List.mem_cons_of_mem _ hg'))]
    exact dlookup_dictSet_ne _ _ _ _ (hk g (List.mem_cons_self g rest))

theorem xmlStage_lookup_of_mem (xmlFields : List TypeField) :
    ((xmlFields.map (fun f => f.name)).Nodup) →
    ∀ (fields : Dict FieldDict) (f : TypeField), f ∈ xmlFields →
    dlookup (xmlStage xmlFields fields) f.name = some (xmlMergedField f) := by
  induction xmlFields with
  | nil => intro _ fields f h; cases h
  | cons g rest ih =>
    intro hnodup fields f hf
    rcases List.mem_cons.mp hf with heq | hmem
    · subst heq
      have hni : f.name ∉ rest.map (fun f => f.name) := (List.nodup_cons.mp hnodup).1
      show dlookup (xmlStage rest (dictSet fields f.name (xmlMergedField f))) f.name = _
      rw [xmlStage_lookup_preserved rest _ f.name
        (fun g' hg' he => hni (he ▸ List.mem_map_of_mem (fun f => f.name) hg'))]
      exact dlookup_dictSet_self _ _ _
    · exact ih (List.nodup_cons.mp hnodup).2 _ f hmem

/-- C8 counterexample: on a concrete input (the `Boring` type with an
empty schema and catalogue) the merged descriptor for the configured XML
field `mv_mtaw` exists but carries neither the `sourcefield` key (whose
configured value is `/boring/oorspronkelijk_maaiveld/waarde`) nor the
`source` key, so the output does not exactly match the configured XML
field table and its `source`/`sourcefield` metadata are not carried
over unchanged. -/
theorem xml_field_not_verbatim_counterexample :
    ((dlookup (buildFields boringAllFields ⟨[]⟩ ⟨[]⟩).fields "mv_mtaw").map
      (fun d => dlookup d "sourcefield") = some none) ∧
    ((dlookup (buildFields boringAllFields ⟨[]⟩ ⟨[]⟩).fields "mv_mtaw").map
      (fun d => dlookup d "source") = some none) ∧
    ((getFields boringAllFields ["xml"]).any (fun f =>
      f.name == "mv_mtaw" &&
      f.sourcefield == "/boring/oorspronkelijk_maaiveld/waarde") = true) := by
  exact ⟨by decide, by decide, by decide⟩

/-- C8 (amended): every XML-sourced configured field of the type is
merged into the resolver output with `cost = 10` and its configured
name, type, definition and notnull unchanged; the merged descriptor
consists of exactly the five keys `name`, `type`, `definition`,
`notnull`, `cost` — the configured `source` and `sourcefield` metadata
are not carried into it. Stated under the (satisfied for `Boring`)
assumptions that the configured XML names are duplicate-free and that
the entry carries a definition and a notnull flag. -/
theorem xml_fields_merged_with_cost10 (typeFields : List TypeField)
    (wfsSchema : Schema) (featureCatalogue : FeatureCatalogue) (f : TypeField)
    (hnodup : ((getFields typeFields ["xml"]).map (fun g => g.name)).Nodup)
    (hf : f ∈ getFields typeFields ["xml"]) (d : String) (nn : Bool)
    (hdef : f.definition = some d) (hnn : f.notnull = some nn) :
    dlookup (buildFields typeFields wfsSchema featureCatalogue).fields f.name =
      some [("name", FV.s f.name), ("type", FV.s f.ftype),
            ("definition", FV.s d), ("notnull", FV.b nn), ("cost", FV.i 10)] := by
  simp only [buildFields]
  rw [xmlStage_lookup_of_mem _ hnodup _ f hf]
  simp [xmlMergedField, hdef, hnn]

/-- C8 witness: the configured XML field `mv_mtaw` of `Boring` is merged
verbatim on name, type, definition and notnull, with cost 10. -/
theorem xml_fields_merged_with_cost10_witness :
    dlookup (buildFields boringAllFields sampleSchema sampleCatalogue).fields
        "mv_mtaw" =
      some [("name", FV.s "mv_mtaw"), ("type", FV.s "float"),
            ("definition", FV.s ("Maaiveldhoogte in mTAW op dag dat de boring " ++
              "uitgevoerd werd.")),
            ("notnull", FV.b false), ("cost", FV.i 10)] := by
  exact xml_fields_merged_with_cost10 boringAllFields sampleSchema sampleCatalogue
    { name := "mv_mtaw", source := "xml",
      sourcefield := "/boring/oorspronkelijk_maaiveld/waarde", ftype := "float",
      definition := some ("Maaiveldhoogte in mTAW op dag dat de boring " ++
        "uitgevoerd werd."),
      notnull := some false }
    (by decide) (by decide) _ _ rfl rfl

end Pydov
